import Mathlib

/- Verification development for the procedural animation engine of
   src/components/PixelGridBackground.tsx.

   Modelling conventions:
   - JS numbers are modelled as rationals; typed arrays as lists
     (List.set is a no-op out of bounds, matching in-bounds-only writes).
   - Math.round is Mathlib's round (both are floor of x + 1/2).
   - The two external seeded 3d noise generators, the external seedrandom
     stream and Math.pow are abstract function parameters: nothing here
     depends on their concrete values beyond what the source guarantees.
   - Colors are modelled as parsed RGB triples: the source interchangeably
     emits a color as its original hex string or as an rgb(r, g, b) string,
     both denoting the same parsed triple. -/

namespace PixelWave

/-- Clamp to the unit interval, as Math.max(0, Math.min(1, q)). -/
def clamp01 (q : ℚ) : ℚ := max 0 (min 1 q)

/-- One character of the class [a-f0-9A-F] (the regex runs case-insensitive). -/
def isHexDigit (c : Char) : Bool :=
  (decide ('0' ≤ c) && decide (c ≤ '9')) ||
  (decide ('a' ≤ c) && decide (c ≤ 'f')) ||
  (decide ('A' ≤ c) && decide (c ≤ 'F'))

/-- parseInt base-16 value of one hex digit. -/
def hexDigitVal (c : Char) : ℤ :=
  if '0' ≤ c ∧ c ≤ '9' then (c.toNat : ℤ) - ('0'.toNat : ℤ)
  else if 'a' ≤ c ∧ c ≤ 'f' then (c.toNat : ℤ) - ('a'.toNat : ℤ) + 10
  else (c.toNat : ℤ) - ('A'.toNat : ℤ) + 10

/-- parseInt base-16 of a two-character group. -/
def hexPairVal (c1 c2 : Char) : ℤ := hexDigitVal c1 * 16 + hexDigitVal c2

structure RGB where
  r : ℤ
  g : ℤ
  b : ℤ
deriving DecidableEq

/-- The optional leading hash of the hex color pattern. -/
def stripHash (s : List Char) : List Char :=
  match s with
  | c :: t => if c = '#' then t else c :: t
  | [] => []

/-- Models executing the anchored regex of hexToRgb (line 10): an optional
    hash, then exactly three two-digit hex groups, here returned already
    parsed to their numeric values. -/
def hexMatch (s : List Char) : Option (ℤ × ℤ × ℤ) :=
  let t := stripHash s
  if t.length = 6 ∧ t.all isHexDigit then
    some (hexPairVal (t.getD 0 '0') (t.getD 1 '0'),
          hexPairVal (t.getD 2 '0') (t.getD 3 '0'),
          hexPairVal (t.getD 4 '0') (t.getD 5 '0'))
  else none

/-- hexToRgb (lines 9-16): parsed triple on a match, black otherwise. -/
def hexToRgb (s : List Char) : RGB :=
  match hexMatch s with
  | some (r, g, b) => ⟨r, g, b⟩
  | none => ⟨0, 0, 0⟩

/-- lerpColor (lines 18-23); the emitted rgb(r, g, b) string is modelled by
    its parsed triple. -/
def lerpColor (c1 c2 : RGB) (t : ℚ) : RGB :=
  ⟨round ((c1.r : ℚ) + ((c2.r : ℚ) - (c1.r : ℚ)) * t),
   round ((c1.g : ℚ) + ((c2.g : ℚ) - (c1.g : ℚ)) * t),
   round ((c1.b : ℚ) + ((c2.b : ℚ) - (c1.b : ℚ)) * t)⟩

/-- The tunable parameters of the component (lines 32-80), color strings
    omitted (they live in the parsed palette). -/
structure Params where
  pixelSize : ℚ
  gap : ℚ
  accentYellowProb : ℚ
  accentPinkProb : ℚ
  maskHeight : ℚ
  maskFeatherY : ℚ
  macroScale : ℚ
  macroVx : ℚ
  macroVy : ℚ
  macroTimeScale : ℚ
  macroThreshold : ℚ
  macroFeather : ℚ
  microScale : ℚ
  microTimeScale : ℚ
  microThreshold : ℚ
  microFeather : ℚ
  biasStrength : ℚ
  accentMixStrength : ℚ
  mixGamma : ℚ
  smoothing : ℚ
  baseAlpha : ℚ
  activeAlphaBoost : ℚ
  debugView : Bool

/-- The literal defaults of lines 32-80. -/
def defaultParams : Params :=
  { pixelSize := 3
    gap := 5
    accentYellowProb := 0.25
    accentPinkProb := 0.1
    maskHeight := 1.0
    maskFeatherY := 0.2
    macroScale := 0.012
    macroVx := 2.5
    macroVy := -1.0
    macroTimeScale := 0.003
    macroThreshold := 0.35
    macroFeather := 0.15
    microScale := 0.08
    microTimeScale := 0.01
    microThreshold := 0.2
    microFeather := 0.2
    biasStrength := 0.5
    accentMixStrength := 1.0
    mixGamma := 1.8
    smoothing := 0.15
    baseAlpha := 0.25
    activeAlphaBoost := 0.35
    debugView := false }

/-- The parsed palette kept by updatePalette (bg only clears the canvas and
    is not needed by any cell computation). -/
structure PaletteR where
  gray : RGB
  yellow : RGB
  pink : RGB
deriving DecidableEq

/-- updatePalette applied to the default color strings of lines 39-41. -/
def defaultPalette : PaletteR :=
  { gray := hexToRgb (String.data ("#D9D7D2"))
    yellow := hexToRgb (String.data ("#F5F7D9"))
    pink := hexToRgb (String.data ("#FFEAEA")) }

/-- Per-row vertical mask of draw (lines 193-205): ny = y / rows,
    threshold = 1 - maskHeight, clamped feathered ramp. -/
def maskVal (mh mf : ℚ) (rows y : ℕ) : ℚ :=
  clamp01 (((y : ℚ) / (rows : ℚ) - (1 - mh)) / mf)

/-- Feathered threshold band followed by the smoothstep ease
    (lines 219-225 and 234-238). -/
def smoothMask (thr feather v : ℚ) : ℚ :=
  let s := thr - feather
  let e := thr + feather
  let m := clamp01 ((v - s) / (e - s))
  m * m * (3 - 2 * m)

/-- External collaborators: the two seeded 3d noise generators
    (createNoise3D over seedrandom, lines 91-92) and Math.pow. -/
structure Noises where
  macroN : ℚ → ℚ → ℚ → ℚ
  microN : ℚ → ℚ → ℚ → ℚ
  powFn : ℚ → ℚ → ℚ

/-- The per-cell signal pipeline of draw (lines 213-251): advected coarse
    and fine noise fields, both masked, multiplied, biased, clamped, and
    gamma-corrected. -/
def cellTarget (P : Params) (N : Noises) (bias t : ℚ) (x y : ℕ) : ℚ :=
  let macroX := ((x : ℚ) + t * P.macroVx) * P.macroScale
  let macroY := ((y : ℚ) + t * P.macroVy) * P.macroScale
  let macroV := (N.macroN macroX macroY (t * P.macroTimeScale) + 1) * 0.5
  let mMask := smoothMask P.macroThreshold P.macroFeather macroV
  let microX := ((x : ℚ) + t * P.macroVx) * P.microScale
  let microY := ((y : ℚ) + t * P.macroVy) * P.microScale
  let microV := (N.microN microX microY (t * P.microTimeScale) + 1) * 0.5
  let uMask := smoothMask P.microThreshold P.microFeather microV
  let signal := mMask * uMask + bias * P.biasStrength
  let tgt := clamp01 signal
  if P.mixGamma ≠ 1 then N.powFn tgt P.mixGamma else tgt

/-- The grid data of lines 97-104. -/
structure Grid where
  cols : ℕ
  rows : ℕ
  targetTypes : List ℕ
  biases : List ℚ
  activations : List ℚ
deriving DecidableEq

/-- One in-bounds probe of the anti-clustering scan (lines 150-155). -/
def accAt (cols rows : ℕ) (tt : List ℕ) (nx ny : ℤ) : Bool :=
  if 0 ≤ nx ∧ nx < (cols : ℤ) ∧ 0 ≤ ny ∧ ny < (rows : ℤ) then
    tt.getD (ny * (cols : ℤ) + nx).toNat 0 != 0
  else false

/-- The half-neighborhood scan of initGrid (lines 138-159): the loop visits
    up-left, up, up-right on the previous row and the left cell on the
    current row; the early break does not change the resulting boolean. -/
def hasAccentNeighbor (cols rows : ℕ) (tt : List ℕ) (x y : ℕ) : Bool :=
  accAt cols rows tt ((x : ℤ) - 1) ((y : ℤ) - 1) ||
  accAt cols rows tt (x : ℤ) ((y : ℤ) - 1) ||
  accAt cols rows tt ((x : ℤ) + 1) ((y : ℤ) - 1) ||
  accAt cols rows tt ((x : ℤ) - 1) (y : ℤ)

/-- The accent classification of lines 164-166. -/
def classify (pY pP r : ℚ) : ℕ :=
  if r < pY then 1 else if r < pY + pP then 2 else 0

/-- The mutable state of the build loop: the two arrays under construction
    plus a counter of how many rng() draws have been consumed, so the
    stream position is threaded exactly as in the source. -/
structure BuildSt where
  tt : List ℕ
  bs : List ℚ
  k : ℕ

/-- One iteration of the build loop (lines 130-170): one bias draw always,
    one classification draw only when the neighborhood is clear. -/
def buildStep (cols rows : ℕ) (pY pP : ℚ) (rng : ℕ → ℚ) (st : BuildSt) (i : ℕ) :
    BuildSt :=
  let bias := rng st.k * 2 - 1
  let x := i % cols
  let y := i / cols
  if hasAccentNeighbor cols rows st.tt x y then
    ⟨st.tt.set i 0, st.bs.set i bias, st.k + 1⟩
  else
    ⟨st.tt.set i (classify pY pP (rng (st.k + 1))), st.bs.set i bias, st.k + 2⟩

/-- The build loop after its first n iterations, starting from the
    zero-initialized typed arrays. -/
def buildUpTo (cols rows : ℕ) (pY pP : ℚ) (rng : ℕ → ℚ) : ℕ → BuildSt
  | 0 => ⟨List.replicate (cols * rows) 0, List.replicate (cols * rows) 0, 0⟩
  | n + 1 => buildStep cols rows pY pP rng (buildUpTo cols rows pY pP rng n) n

/-- initGrid's array construction for a given cell geometry; activations
    are written to 0 for every cell (line 169), i.e. remain the zeros the
    Float32Array starts with. -/
def initGridCore (cols rows : ℕ) (pY pP : ℚ) (rng : ℕ → ℚ) : Grid :=
  let st := buildUpTo cols rows pY pP rng (cols * rows)
  ⟨cols, rows, st.tt, st.bs, List.replicate (cols * rows) 0⟩

/-- initGrid (lines 115-173). cols and rows are ceilings of the surface
    dimensions over the pitch and may be negative for strongly negative
    inputs; a negative cols * rows makes new Uint8Array(numCells) throw a
    RangeError, modelled as none. (If both ceilings are negative their
    product is positive and the code builds that many cells against
    negative stored cols and rows, which no render loop ever visits; this
    unreachable corner is collapsed to the empty grid here.) -/
def initGrid (rng : ℕ → ℚ) (pY pP pixelSize gap width height : ℚ) : Option Grid :=
  let pitch := pixelSize + gap
  let cz : ℤ := ⌈width / pitch⌉
  let rz : ℤ := ⌈height / pitch⌉
  if cz * rz < 0 then none
  else some (initGridCore cz.toNat rz.toNat pY pP rng)

/-- initGrid as invoked: the rng is re-created from the constant seed
    string on every build (line 128); sr abstracts the seedrandom library
    as a pure map from seed strings to streams. -/
def initGridSeeded (sr : String → ℕ → ℚ) (pY pP pixelSize gap width height : ℚ) :
    Option Grid :=
  initGrid (sr ("grid-layout-fixed")) pY pP pixelSize gap width height

/-- One canvas fillRect emitted by draw: the debug branch (lines 261-266)
    fills a gray level at whatever globalAlpha was last set; the normal
    branch (lines 287-296) sets color and alpha explicitly. -/
inductive RenderOp
  | debugFill (px py size : ℚ) (v : ℤ)
  | cellFill (px py size : ℚ) (color : RGB) (alpha : ℚ)
deriving DecidableEq

/-- The color logic of lines 271-285. The two short-circuit branches
    return the original hex strings whose parsed values are pal.gray and
    the accent entry, so all three branches are modelled as triples. -/
def cellColor (P : Params) (pal : PaletteR) (ty : ℕ) (cur : ℚ) : RGB :=
  if ty = 0 then pal.gray
  else if min 1 (cur * P.accentMixStrength) < 0.01 then pal.gray
  else if min 1 (cur * P.accentMixStrength) > 0.99 then
    (if ty = 1 then pal.yellow else pal.pink)
  else
    lerpColor pal.gray (if ty = 1 then pal.yellow else pal.pink)
      (min 1 (cur * P.accentMixStrength))

/-- One iteration of the inner cell loop of draw (lines 210-297):
    smooth the activation toward the target, store it, emit one fill. -/
def cellStep (P : Params) (N : Noises) (pal : PaletteR) (cols : ℕ) (tt : List ℕ)
    (bs : List ℚ) (t mv : ℚ) (y : ℕ) (st : List ℚ × List RenderOp) (x : ℕ) :
    List ℚ × List RenderOp :=
  let i := y * cols + x
  let pitch := P.pixelSize + P.gap
  let tgt := cellTarget P N (bs.getD i 0) t x y
  let a := st.1.getD i 0
  let cur := a + (tgt - a) * P.smoothing
  let acts := st.1.set i cur
  if P.debugView then
    (acts, st.2 ++ [RenderOp.debugFill ((x : ℚ) * pitch) ((y : ℚ) * pitch)
      P.pixelSize ⌊cur * 255 * mv⌋])
  else
    (acts, st.2 ++ [RenderOp.cellFill ((x : ℚ) * pitch) ((y : ℚ) * pitch)
      P.pixelSize (cellColor P pal (tt.getD i 0) cur)
      ((P.baseAlpha + cur * P.activeAlphaBoost) * mv)])

/-- One iteration of the row loop of draw (lines 193-298): a row whose
    clamped mask value is not positive is skipped whole (line 208). -/
def rowStep (P : Params) (N : Noises) (pal : PaletteR) (cols rows : ℕ)
    (tt : List ℕ) (bs : List ℚ) (t : ℚ) (st : List ℚ × List RenderOp) (y : ℕ) :
    List ℚ × List RenderOp :=
  if maskVal P.maskHeight P.maskFeatherY rows y ≤ 0 then st
  else (List.range cols).foldl
    (cellStep P N pal cols tt bs t (maskVal P.maskHeight P.maskFeatherY rows y) y) st

/-- One frame of draw (lines 175-299) at already-scaled time t (the caller
    passes time * 0.001, or 0 under reduced motion). The background clear
    of lines 187-189 precedes the loop and is independent of the grid, so
    the emitted ops are the per-cell fills. -/
def drawFrame (P : Params) (N : Noises) (pal : PaletteR) (g : Grid) (t : ℚ) :
    Grid × List RenderOp :=
  let res := (List.range g.rows).foldl
    (rowStep P N pal g.cols g.rows g.targetTypes g.biases t) (g.activations, [])
  ({ g with activations := res.1 }, res.2)

/-- The frame loop: state after n rendered frames at the given times. -/
def frames (P : Params) (N : Noises) (pal : PaletteR) (g0 : Grid)
    (times : ℕ → ℚ) : ℕ → Grid
  | 0 => g0
  | n + 1 => (drawFrame P N pal (frames P N pal g0 times n) (times n)).1

/-- The temporal smoother of line 255 iterated from activation 0 against a
    constant target T. -/
def smoothIter (s T : ℚ) : ℕ → ℚ
  | 0 => 0
  | n + 1 => smoothIter s T n + (T - smoothIter s T n) * s

/-- The shape named by claim C10: an optional hash followed by exactly six
    hexadecimal digits. -/
def specHexForm (s : List Char) : Prop :=
  ∃ t, (s = '#' :: t ∨ s = t) ∧ t.length = 6 ∧ ∀ c ∈ t, isHexDigit c = true

/-- Every channel of v lies in the closed interval spanned by the
    corresponding channels of c1 and c2. -/
def chanBetween (c1 c2 v : RGB) : Prop :=
  (min c1.r c2.r ≤ v.r ∧ v.r ≤ max c1.r c2.r) ∧
  (min c1.g c2.g ≤ v.g ∧ v.g ≤ max c1.g c2.g) ∧
  (min c1.b c2.b ≤ v.b ∧ v.b ≤ max c1.b c2.b)

/-- Fixture: a seedrandom model that returns 0 on every draw of every seed. -/
def srA : String → ℕ → ℚ := fun _ _ => 0

/-- Fixture: a second seedrandom model, differing from srA on other seeds
    only. -/
def srB : String → ℕ → ℚ := fun s _ => if s = "other" then 1 else 0

/-- Fixture: a stream making cell 1 of a 2 by 2 grid an accent cell. -/
def accentRng : ℕ → ℚ := fun k => if k = 3 then 0 else 1

/-- Fixture: zero noise fields and an identity power function. -/
def zeroNoises : Noises :=
  { macroN := fun _ _ _ => 0
    microN := fun _ _ _ => 0
    powFn := fun q _ => q }

/-- Fixture: a one-cell grid with a stored activation of 1/2. -/
def oneCellGrid : Grid := ⟨1, 1, [0], [0], [1/2]⟩

/- ------------------------------------------------------------------ -/
/- Helper lemmas. -/
/- ------------------------------------------------------------------ -/

theorem clamp01_nonneg (q : ℚ) : 0 ≤ clamp01 q := le_max_left 0 _

theorem clamp01_le_one (q : ℚ) : clamp01 q ≤ 1 :=
  max_le zero_le_one (min_le_left 1 q)

theorem clamp01_mono {a b : ℚ} (h : a ≤ b) : clamp01 a ≤ clamp01 b :=
  max_le_max le_rfl (min_le_min le_rfl h)

theorem getD_set_ne {α : Type} : ∀ (l : List α) (i j : ℕ) (a d : α), i ≠ j →
    (l.set i a).getD j d = l.getD j d
  | [], _, _, _, _, _ => rfl
  | _ :: _, 0, 0, _, _, h => absurd rfl h
  | _ :: _, 0, _ + 1, _, _, _ => rfl
  | _ :: _, _ + 1, 0, _, _, _ => rfl
  | _ :: l, i + 1, j + 1, a, d, h =>
      getD_set_ne l i j a d (fun e => h (by rw [e]))

theorem getD_set_self {α : Type} : ∀ (l : List α) (i : ℕ) (a d : α), i < l.length →
    (l.set i a).getD i d = a
  | [], i, _, _, h => absurd h (Nat.not_lt_zero i)
  | _ :: _, 0, _, _, _ => rfl
  | _ :: l, i + 1, a, d, h => getD_set_self l i a d (Nat.lt_of_succ_lt_succ h)

theorem getD_set_or {α : Type} : ∀ (l : List α) (i j : ℕ) (a d : α),
    (l.set i a).getD j d = a ∨ (l.set i a).getD j d = l.getD j d
  | [], _, _, _, _ => Or.inr rfl
  | _ :: _, 0, 0, _, _ => Or.inl rfl
  | _ :: _, 0, _ + 1, _, _ => Or.inr rfl
  | _ :: _, _ + 1, 0, _, _ => Or.inr rfl
  | _ :: l, i + 1, j + 1, a, d => getD_set_or l i j a d

theorem getD_replicate {α : Type} : ∀ (n j : ℕ) (x : α),
    (List.replicate n x).getD j x = x
  | 0, _, _ => rfl
  | _ + 1, 0, _ => rfl
  | n + 1, j + 1, x => getD_replicate n j x

theorem foldl_inv {α β : Type} (Inv : β → Prop) (f : β → α → β) :
    ∀ (l : List α), (∀ a, a ∈ l → ∀ st, Inv st → Inv (f st a)) →
      ∀ st, Inv st → Inv (l.foldl f st)
  | [], _, _, h0 => h0
  | a :: l, h, st, h0 =>
      foldl_inv Inv f l (fun b hb => h b (List.mem_cons_of_mem a hb))
        (f st a) (h a (List.mem_cons_self a l) st h0)

theorem round_mono2 {x y : ℚ} (h : x ≤ y) : round x ≤ round y := by
  rw [round_eq, round_eq]
  exact Int.floor_le_floor (by linarith)

theorem lerp_channel_bounds (gc ac : ℤ) (m : ℚ) (h0 : 0 ≤ m) (h1 : m ≤ 1) :
    min gc ac ≤ round ((gc : ℚ) + ((ac : ℚ) - (gc : ℚ)) * m) ∧
    round ((gc : ℚ) + ((ac : ℚ) - (gc : ℚ)) * m) ≤ max gc ac := by
  rcases le_total gc ac with hle | hle
  · have hq : (gc : ℚ) ≤ (ac : ℚ) := by exact_mod_cast hle
    have hlo : (gc : ℚ) ≤ (gc : ℚ) + ((ac : ℚ) - (gc : ℚ)) * m := by nlinarith
    have hhi : (gc : ℚ) + ((ac : ℚ) - (gc : ℚ)) * m ≤ (ac : ℚ) := by nlinarith
    constructor
    · calc min gc ac = gc := min_eq_left hle
        _ = round ((gc : ℚ)) := (round_intCast gc).symm
        _ ≤ _ := round_mono2 hlo
    · calc round ((gc : ℚ) + ((ac : ℚ) - (gc : ℚ)) * m)
          ≤ round ((ac : ℚ)) := round_mono2 hhi
        _ = ac := round_intCast ac
        _ = max gc ac := (max_eq_right hle).symm
  · have hq : (ac : ℚ) ≤ (gc : ℚ) := by exact_mod_cast hle
    have hlo : (ac : ℚ) ≤ (gc : ℚ) + ((ac : ℚ) - (gc : ℚ)) * m := by nlinarith
    have hhi : (gc : ℚ) + ((ac : ℚ) - (gc : ℚ)) * m ≤ (gc : ℚ) := by nlinarith
    constructor
    · calc min gc ac = ac := min_eq_right hle
        _ = round ((ac : ℚ)) := (round_intCast ac).symm
        _ ≤ _ := round_mono2 hlo
    · calc round ((gc : ℚ) + ((ac : ℚ) - (gc : ℚ)) * m)
          ≤ round ((gc : ℚ)) := round_mono2 hhi
        _ = gc := round_intCast gc
        _ = max gc ac := (max_eq_left hle).symm

theorem smoothstep_mono {a b : ℚ} (h0 : 0 ≤ a) (hab : a ≤ b) (h1 : b ≤ 1) :
    a * a * (3 - 2 * a) ≤ b * b * (3 - 2 * b) := by
  nlinarith [mul_nonneg h0 (sub_nonneg.mpr (le_trans hab h1)),
    mul_nonneg (le_trans h0 hab) (sub_nonneg.mpr h1),
    sub_nonneg.mpr hab, mul_nonneg h0 (sub_nonneg.mpr h1),
    mul_nonneg (mul_nonneg h0 (sub_nonneg.mpr hab)) (sub_nonneg.mpr h1)]

theorem smoothIter_gap (s T : ℚ) : ∀ n, T - smoothIter s T n = T * (1 - s) ^ n
  | 0 => by simp [smoothIter]
  | n + 1 => by
    have ih := smoothIter_gap s T n
    calc T - smoothIter s T (n + 1)
        = (T - smoothIter s T n) * (1 - s) := by simp only [smoothIter]; ring
      _ = T * (1 - s) ^ n * (1 - s) := by rw [ih]
      _ = T * (1 - s) ^ (n + 1) := by ring

theorem buildUpTo_tt_length (cols rows : ℕ) (pY pP : ℚ) (rng : ℕ → ℚ) :
    ∀ m, (buildUpTo cols rows pY pP rng m).tt.length = cols * rows
  | 0 => by simp [buildUpTo]
  | m + 1 => by
    have ih := buildUpTo_tt_length cols rows pY pP rng m
    simp only [buildUpTo, buildStep]
    split <;> simpa using ih

theorem buildUpTo_tt_stable (cols rows : ℕ) (pY pP : ℚ) (rng : ℕ → ℚ)
    (j m : ℕ) (hj : j < m) :
    ∀ m', m ≤ m' →
      (buildUpTo cols rows pY pP rng m').tt.getD j 0
        = (buildUpTo cols rows pY pP rng m).tt.getD j 0 := by
  intro m'
  induction m' with
  | zero =>
    intro hm
    have : m = 0 := Nat.le_zero.mp hm
    rw [this]
  | succ n ih =>
    intro hm
    rcases Nat.eq_or_lt_of_le hm with he | hl
    · rw [he]
    · have hmn : m ≤ n := Nat.lt_succ_iff.mp hl
      rw [← ih hmn]
      show (buildStep cols rows pY pP rng (buildUpTo cols rows pY pP rng n) n).tt.getD
          j 0 = (buildUpTo cols rows pY pP rng n).tt.getD j 0
      simp only [buildStep]
      split
      · exact getD_set_ne _ n j _ _ (by omega)
      · exact getD_set_ne _ n j _ _ (by omega)

theorem buildUpTo_tt_write (cols rows : ℕ) (pY pP : ℚ) (rng : ℕ → ℚ)
    (i : ℕ) (hi : i < cols * rows) :
    (buildUpTo cols rows pY pP rng (i + 1)).tt.getD i 0
      = (if hasAccentNeighbor cols rows (buildUpTo cols rows pY pP rng i).tt
            (i % cols) (i / cols)
         then 0
         else classify pY pP (rng ((buildUpTo cols rows pY pP rng i).k + 1))) := by
  have hlen : i < (buildUpTo cols rows pY pP rng i).tt.length := by
    rw [buildUpTo_tt_length]
    exact hi
  show (buildStep cols rows pY pP rng (buildUpTo cols rows pY pP rng i) i).tt.getD
      i 0 = _
  simp only [buildStep]
  split
  · exact getD_set_self _ i _ _ hlen
  · exact getD_set_self _ i _ _ hlen

theorem accAt_eq_false {cols rows : ℕ} {tt : List ℕ} {nx ny : ℤ}
    (h : accAt cols rows tt nx ny = false)
    (hb : 0 ≤ nx ∧ nx < (cols : ℤ) ∧ 0 ≤ ny ∧ ny < (rows : ℤ)) :
    tt.getD (ny * (cols : ℤ) + nx).toNat 0 = 0 := by
  unfold accAt at h
  rw [if_pos hb] at h
  simpa using h

theorem rowIdx_lt {cols y y' x x' : ℕ} (hx : x < cols) (hyy : y < y') :
    y * cols + x < y' * cols + x' := by
  calc y * cols + x < y * cols + cols := by omega
    _ = (y + 1) * cols := by ring
    _ ≤ y' * cols := Nat.mul_le_mul_right cols hyy
    _ ≤ y' * cols + x' := Nat.le_add_right _ _

theorem rowIdx_ne {cols y y' x x' : ℕ} (hx : x < cols) (hx' : x' < cols)
    (hyy : y ≠ y') : y * cols + x ≠ y' * cols + x' := by
  rcases Nat.lt_trichotomy y y' with hl | he | hl
  · exact (rowIdx_lt hx hl).ne
  · exact absurd he hyy
  · exact (rowIdx_lt hx' hl).ne'

theorem rowStep_cols_zero (P : Params) (N : Noises) (pal : PaletteR) (rows : ℕ)
    (tt : List ℕ) (bs : List ℚ) (t : ℚ) (st : List ℚ × List RenderOp) (y : ℕ) :
    rowStep P N pal 0 rows tt bs t st y = st := by
  simp only [rowStep]
  split
  · rfl
  · rw [List.range_zero, List.foldl_nil]

theorem drawFrame_empty (P : Params) (N : Noises) (pal : PaletteR) (g : Grid)
    (t : ℚ) (hc : g.cols = 0 ∨ g.rows = 0) :
    drawFrame P N pal g t = (g, []) := by
  simp only [drawFrame]
  rcases hc with hc | hr
  · have hfold : ∀ (l : List ℕ) (st : List ℚ × List RenderOp),
        l.foldl (rowStep P N pal g.cols g.rows g.targetTypes g.biases t) st = st := by
      intro l
      induction l with
      | nil => intro st; rfl
      | cons a l ih =>
        intro st
        rw [List.foldl_cons]
        rw [show rowStep P N pal g.cols g.rows g.targetTypes g.biases t st a = st by
          rw [hc]
          exact rowStep_cols_zero P N pal g.rows g.targetTypes g.biases t st a]
        exact ih st
    rw [hfold]
  · have hrange : List.range g.rows = [] := by
      rw [hr]
      exact List.range_zero
    rw [hrange, List.foldl_nil]

theorem cellStep_getD_ne (P : Params) (N : Noises) (pal : PaletteR) (cols : ℕ)
    (tt : List ℕ) (bs : List ℚ) (t mv : ℚ) (y : ℕ) (st : List ℚ × List RenderOp)
    (x j : ℕ) (hj : j ≠ y * cols + x) :
    ((cellStep P N pal cols tt bs t mv y st x).1).getD j 0 = st.1.getD j 0 := by
  simp only [cellStep]
  split <;> exact getD_set_ne _ _ _ _ _ (Ne.symm hj)

theorem rowStep_getD_outside (P : Params) (N : Noises) (pal : PaletteR)
    (cols rows : ℕ) (tt : List ℕ) (bs : List ℚ) (t : ℚ)
    (st : List ℚ × List RenderOp) (y j : ℕ)
    (hj : ∀ x, x < cols → j ≠ y * cols + x) :
    ((rowStep P N pal cols rows tt bs t st y).1).getD j 0 = st.1.getD j 0 := by
  unfold rowStep
  split
  · rfl
  · exact foldl_inv (fun s2 => s2.1.getD j 0 = st.1.getD j 0) _ (List.range cols)
      (fun x hx s2 h2 =>
        (cellStep_getD_ne P N pal cols tt bs t _ y s2 x j
          (hj x (List.mem_range.mp hx))).trans h2)
      st rfl

theorem cellTarget_mem (P : Params) (N : Noises) (bias t : ℚ) (x y : ℕ)
    (hγ : 0 < P.mixGamma)
    (hpow : ∀ q e : ℚ, 0 < e → 0 ≤ q → q ≤ 1 →
      0 ≤ N.powFn q e ∧ N.powFn q e ≤ 1) :
    0 ≤ cellTarget P N bias t x y ∧ cellTarget P N bias t x y ≤ 1 := by
  simp only [cellTarget]
  split
  · exact hpow _ _ hγ (clamp01_nonneg _) (clamp01_le_one _)
  · exact ⟨clamp01_nonneg _, clamp01_le_one _⟩

theorem ema_mem {a tgt s : ℚ} (ha0 : 0 ≤ a) (ha1 : a ≤ 1) (ht0 : 0 ≤ tgt)
    (ht1 : tgt ≤ 1) (hs0 : 0 < s) (hs1 : s ≤ 1) :
    0 ≤ a + (tgt - a) * s ∧ a + (tgt - a) * s ≤ 1 := by
  constructor
  · nlinarith [mul_nonneg ha0 (by linarith : (0 : ℚ) ≤ 1 - s),
      mul_nonneg ht0 hs0.le]
  · nlinarith [mul_le_mul_of_nonneg_right ha1 (by linarith : (0 : ℚ) ≤ 1 - s),
      mul_le_mul_of_nonneg_right ht1 hs0.le]

theorem cellStep_inv (P : Params) (N : Noises) (pal : PaletteR) (cols : ℕ)
    (tt : List ℕ) (bs : List ℚ) (t mv : ℚ) (y : ℕ)
    (hs0 : 0 < P.smoothing) (hs1 : P.smoothing ≤ 1) (hγ : 0 < P.mixGamma)
    (hpow : ∀ q e : ℚ, 0 < e → 0 ≤ q → q ≤ 1 →
      0 ≤ N.powFn q e ∧ N.powFn q e ≤ 1)
    (st : List ℚ × List RenderOp)
    (hst : ∀ j, 0 ≤ st.1.getD j 0 ∧ st.1.getD j 0 ≤ 1) (x : ℕ) :
    ∀ j, 0 ≤ ((cellStep P N pal cols tt bs t mv y st x).1).getD j 0 ∧
      ((cellStep P N pal cols tt bs t mv y st x).1).getD j 0 ≤ 1 := by
  intro j
  have htgt := cellTarget_mem P N (bs.getD (y * cols + x) 0) t x y hγ hpow
  have hcur := ema_mem (hst (y * cols + x)).1 (hst (y * cols + x)).2 htgt.1 htgt.2
    hs0 hs1
  simp only [cellStep]
  split <;>
      rcases getD_set_or st.1 (y * cols + x) j _ 0 with he | he <;>
    rw [he]
  · exact hcur
  · exact hst j
  · exact hcur
  · exact hst j

theorem rowStep_inv (P : Params) (N : Noises) (pal : PaletteR) (cols rows : ℕ)
    (tt : List ℕ) (bs : List ℚ) (t : ℚ)
    (hs0 : 0 < P.smoothing) (hs1 : P.smoothing ≤ 1) (hγ : 0 < P.mixGamma)
    (hpow : ∀ q e : ℚ, 0 < e → 0 ≤ q → q ≤ 1 →
      0 ≤ N.powFn q e ∧ N.powFn q e ≤ 1)
    (st : List ℚ × List RenderOp)
    (hst : ∀ j, 0 ≤ st.1.getD j 0 ∧ st.1.getD j 0 ≤ 1) (y : ℕ) :
    ∀ j, 0 ≤ ((rowStep P N pal cols rows tt bs t st y).1).getD j 0 ∧
      ((rowStep P N pal cols rows tt bs t st y).1).getD j 0 ≤ 1 := by
  simp only [rowStep]
  split
  · exact hst
  · exact foldl_inv (fun s2 => ∀ j, 0 ≤ s2.1.getD j 0 ∧ s2.1.getD j 0 ≤ 1) _
      (List.range cols)
      (fun x _ s2 h2 => cellStep_inv P N pal cols tt bs t _ y hs0 hs1 hγ hpow s2 h2 x)
      st hst

theorem drawFrame_inv (P : Params) (N : Noises) (pal : PaletteR) (g : Grid)
    (t : ℚ)
    (hs0 : 0 < P.smoothing) (hs1 : P.smoothing ≤ 1) (hγ : 0 < P.mixGamma)
    (hpow : ∀ q e : ℚ, 0 < e → 0 ≤ q → q ≤ 1 →
      0 ≤ N.powFn q e ∧ N.powFn q e ≤ 1)
    (hst : ∀ j, 0 ≤ g.activations.getD j 0 ∧ g.activations.getD j 0 ≤ 1) :
    ∀ j, 0 ≤ (drawFrame P N pal g t).1.activations.getD j 0 ∧
      (drawFrame P N pal g t).1.activations.getD j 0 ≤ 1 := by
  simp only [drawFrame]
  exact foldl_inv (fun s2 => ∀ j, 0 ≤ s2.1.getD j 0 ∧ s2.1.getD j 0 ≤ 1) _
    (List.range g.rows)
    (fun y _ s2 h2 =>
      rowStep_inv P N pal g.cols g.rows g.targetTypes g.biases t hs0 hs1 hγ hpow
        s2 h2 y)
    (g.activations, []) hst

/- ------------------------------------------------------------------ -/
/- Claim theorems. -/
/- ------------------------------------------------------------------ -/

/-- C1 counterexample: with maskHeight = 1.0 and the default feather, the
    top row of a one-row grid has maskVal = 0, not 1 (and is skipped). -/
theorem C1_counterexample :
    defaultParams.maskHeight = 1 ∧
    maskVal defaultParams.maskHeight defaultParams.maskFeatherY 1 0 = 0 ∧
    maskVal defaultParams.maskHeight defaultParams.maskFeatherY 1 0 ≠ 1 := by
  have h1 : defaultParams.maskHeight = 1 := by norm_num [defaultParams]
  have h2 : maskVal defaultParams.maskHeight defaultParams.maskFeatherY 1 0 = 0 := by
    norm_num [defaultParams, maskVal, clamp01, min_def, max_def]
  exact ⟨h1, h2, by rw [h2]; norm_num⟩

/-- C1 amended: with maskHeight = 1.0, maskVal = 1 holds exactly for rows
    with ny at least maskFeatherY, while row 0 always has maskVal = 0 (and
    is skipped); with maskHeight = 0.3 and maskFeatherY = 0.2, every row
    with ny < 0.5 yields maskVal = 0 exactly. -/
theorem C1_thm (mf : ℚ) (hf : 0 < mf) :
    (∀ rows y : ℕ, mf ≤ (y : ℚ) / (rows : ℚ) → maskVal 1 mf rows y = 1) ∧
    (∀ rows : ℕ, maskVal 1 mf rows 0 = 0) ∧
    (∀ rows y : ℕ, (y : ℚ) / (rows : ℚ) < 1 / 2 →
      maskVal (3 / 10) (1 / 5) rows y = 0) := by
  refine ⟨?_, ?_, ?_⟩
  · intro rows y h
    unfold maskVal clamp01
    have h1 : 1 ≤ ((y : ℚ) / (rows : ℚ) - (1 - 1)) / mf := by
      rw [le_div_iff₀ hf]
      linarith
    rw [min_eq_left h1, max_eq_right zero_le_one]
  · intro rows
    simp [maskVal, clamp01]
  · intro rows y h
    unfold maskVal clamp01
    have h1 : ((y : ℚ) / (rows : ℚ) - (1 - 3 / 10)) / (1 / 5) ≤ -1 := by
      rw [div_le_iff₀ (by norm_num : (0 : ℚ) < 1 / 5)]
      linarith
    rw [min_eq_right (by linarith), max_eq_left (by linarith)]

/-- C1 witness: concrete instances of the amended statement on a 13-row
    grid with the default feather. -/
theorem C1_witness :
    (0 : ℚ) < 1 / 5 ∧
    maskVal 1 (1 / 5) 13 12 = 1 ∧
    maskVal 1 (1 / 5) 13 0 = 0 ∧
    maskVal (3 / 10) (1 / 5) 13 1 = 0 :=
  ⟨by norm_num,
   (C1_thm (1 / 5) (by norm_num)).1 13 12 (by norm_num),
   (C1_thm (1 / 5) (by norm_num)).2.1 13,
   (C1_thm (1 / 5) (by norm_num)).2.2 13 1 (by norm_num)⟩

/-- C4: two builds produce bit-identical targetTypes and biases arrays for
    the same geometry and probabilities, even across two states of the
    world (sr and sr'), because the rng stream is re-created from the
    constant seed string on every build and seedrandom is deterministic in
    its seed. -/
theorem C4_thm (sr sr' : String → ℕ → ℚ) (pY pP ps gap w h : ℚ)
    (hdet : sr ("grid-layout-fixed") = sr' ("grid-layout-fixed")) :
    (initGridSeeded sr pY pP ps gap w h).map Grid.targetTypes
      = (initGridSeeded sr' pY pP ps gap w h).map Grid.targetTypes ∧
    (initGridSeeded sr pY pP ps gap w h).map Grid.biases
      = (initGridSeeded sr' pY pP ps gap w h).map Grid.biases := by
  unfold initGridSeeded
  rw [hdet]
  exact ⟨rfl, rfl⟩

/-- C4 witness: two concrete seedrandom models agreeing on the fixed seed
    yield identical arrays on a 2 by 2 surface. -/
theorem C4_witness :
    srA ("grid-layout-fixed") = srB ("grid-layout-fixed") ∧
    ((initGridSeeded srA (1 / 4) (1 / 10) 3 5 16 16).map Grid.targetTypes
       = (initGridSeeded srB (1 / 4) (1 / 10) 3 5 16 16).map Grid.targetTypes ∧
     (initGridSeeded srA (1 / 4) (1 / 10) 3 5 16 16).map Grid.biases
       = (initGridSeeded srB (1 / 4) (1 / 10) 3 5 16 16).map Grid.biases) := by
  have hdet : srA ("grid-layout-fixed") = srB ("grid-layout-fixed") := by
    funext k
    simp [srA, srB]
  exact ⟨hdet, C4_thm srA srB (1 / 4) (1 / 10) 3 5 16 16 hdet⟩

/-- C5: from activation 0 against a constant target T in the unit
    interval, the smoother is monotone non-decreasing, never exceeds T,
    converges to T, and with smoothing factor 1 equals T from step 1 on. -/
theorem C5_thm (s T : ℚ) (hs0 : 0 < s) (hs1 : s ≤ 1) (hT0 : 0 ≤ T) (hT1 : T ≤ 1) :
    (∀ n, smoothIter s T n ≤ smoothIter s T (n + 1)) ∧
    (∀ n, smoothIter s T n ≤ T) ∧
    (∀ ε : ℚ, 0 < ε → ∃ N, ∀ n, N ≤ n → T - smoothIter s T n < ε) ∧
    (s = 1 → ∀ n, 1 ≤ n → smoothIter s T n = T) := by
  have gap := smoothIter_gap s T
  have hq : (0 : ℚ) ≤ 1 - s := by linarith
  have hub : ∀ n, smoothIter s T n ≤ T := by
    intro n
    have h1 : (0 : ℚ) ≤ (1 - s) ^ n := pow_nonneg hq n
    nlinarith [gap n, mul_nonneg hT0 h1]
  refine ⟨?_, hub, ?_, ?_⟩
  · intro n
    have h1 := mul_nonneg (sub_nonneg.mpr (hub n)) hs0.le
    simp only [smoothIter]
    linarith
  · intro ε hε
    obtain ⟨N, hN⟩ := exists_pow_lt_of_lt_one hε (show 1 - s < 1 by linarith)
    refine ⟨N, fun n hn => ?_⟩
    have h1 : (1 - s) ^ n ≤ (1 - s) ^ N :=
      pow_le_pow_of_le_one hq (by linarith) hn
    have h2 : T * (1 - s) ^ n ≤ (1 - s) ^ n := by
      nlinarith [pow_nonneg hq n]
    calc T - smoothIter s T n = T * (1 - s) ^ n := gap n
      _ ≤ (1 - s) ^ n := h2
      _ ≤ (1 - s) ^ N := h1
      _ < ε := hN
  · intro hs n hn
    subst hs
    obtain ⟨m, rfl⟩ : ∃ m, n = m + 1 := ⟨n - 1, by omega⟩
    have h := gap (m + 1)
    norm_num at h
    linarith

/-- C5 witness: the smoother statement instantiated at s = 1/2, T = 1. -/
theorem C5_witness :
    ((0 : ℚ) < 1 / 2 ∧ (1 : ℚ) / 2 ≤ 1 ∧ (0 : ℚ) ≤ 1 ∧ (1 : ℚ) ≤ 1) ∧
    ((∀ n, smoothIter (1 / 2) 1 n ≤ smoothIter (1 / 2) 1 (n + 1)) ∧
     (∀ n, smoothIter (1 / 2) 1 n ≤ 1) ∧
     (∀ ε : ℚ, 0 < ε → ∃ N, ∀ n, N ≤ n → 1 - smoothIter (1 / 2) 1 n < ε) ∧
     ((1 : ℚ) / 2 = 1 → ∀ n, 1 ≤ n → smoothIter (1 / 2) 1 n = 1)) :=
  ⟨by norm_num,
   C5_thm (1 / 2) 1 (by norm_num) (by norm_num) (by norm_num) (by norm_num)⟩

/-- C6 counterexample: an intermediate mix of 0.01 on the default palette
    for an accent-A cell rounds every channel back to the base color, so
    the blue channel is not strictly between the distinct base and accent
    channels. -/
theorem C6_counterexample :
    cellColor defaultParams defaultPalette 1 (1 / 100) = defaultPalette.gray ∧
    defaultPalette.gray.b = 210 ∧ defaultPalette.yellow.b = 217 ∧
    ¬ (defaultPalette.gray.b = defaultPalette.yellow.b ∨
       (min defaultPalette.gray.b defaultPalette.yellow.b
          < (cellColor defaultParams defaultPalette 1 (1 / 100)).b ∧
        (cellColor defaultParams defaultPalette 1 (1 / 100)).b
          < max defaultPalette.gray.b defaultPalette.yellow.b)) := by
  have hg : defaultPalette.gray = ⟨217, 215, 210⟩ := by decide
  have hy : defaultPalette.yellow = ⟨245, 247, 217⟩ := by decide
  have hcell : cellColor defaultParams defaultPalette 1 (1 / 100)
      = defaultPalette.gray := by
    unfold cellColor
    rw [if_neg (by decide : ¬ (1 : ℕ) = 0)]
    have hstr : defaultParams.accentMixStrength = 1 := by norm_num [defaultParams]
    have hmix : min 1 ((1 : ℚ) / 100 * defaultParams.accentMixStrength) = 1 / 100 := by
      rw [hstr, min_eq_right (by norm_num : (1 : ℚ) / 100 * 1 ≤ 1)]
      norm_num
    rw [hmix]
    rw [if_neg (by norm_num : ¬ ((1 : ℚ) / 100 < 0.01))]
    rw [if_neg (by norm_num : ¬ ((1 : ℚ) / 100 > 0.99))]
    rw [if_pos rfl, hg, hy]
    simp only [lerpColor, RGB.mk.injEq]
    refine ⟨?_, ?_, ?_⟩ <;>
      · push_cast
        rw [round_eq, Int.floor_eq_iff]
        norm_num
  refine ⟨hcell, by rw [hg], by rw [hy], ?_⟩
  rw [hcell, hg, hy]
  decide

/-- C6 amended: for a non-Base cell, mix = 0 yields exactly the base
    color, a product of at least 1 yields exactly the accent color, and
    every resulting channel lies weakly between the base and accent
    channels (rounding can land exactly on an endpoint even when the base
    and accent channels differ). -/
theorem C6_thm (P : Params) (pal : PaletteR) (ty : ℕ) (cur : ℚ)
    (hty : ty ≠ 0) (hcur : 0 ≤ cur) (hstr : 0 ≤ P.accentMixStrength) :
    (cur * P.accentMixStrength = 0 → cellColor P pal ty cur = pal.gray) ∧
    (1 ≤ cur * P.accentMixStrength →
      cellColor P pal ty cur = (if ty = 1 then pal.yellow else pal.pink)) ∧
    chanBetween pal.gray (if ty = 1 then pal.yellow else pal.pink)
      (cellColor P pal ty cur) := by
  have hmix0 : 0 ≤ min 1 (cur * P.accentMixStrength) :=
    le_min zero_le_one (mul_nonneg hcur hstr)
  have hmix1 : min 1 (cur * P.accentMixStrength) ≤ 1 := min_le_left 1 _
  refine ⟨?_, ?_, ?_⟩
  · intro h0
    unfold cellColor
    rw [if_neg hty, h0, min_eq_right zero_le_one,
      if_pos (by norm_num : (0 : ℚ) < 0.01)]
  · intro h1
    unfold cellColor
    rw [if_neg hty, min_eq_left h1,
      if_neg (by norm_num : ¬ ((1 : ℚ) < 0.01)),
      if_pos (by norm_num : (1 : ℚ) > 0.99)]
  · unfold cellColor chanBetween
    rw [if_neg hty]
    by_cases hlt : min 1 (cur * P.accentMixStrength) < 0.01
    · rw [if_pos hlt]
      exact ⟨⟨min_le_left _ _, le_max_left _ _⟩,
        ⟨min_le_left _ _, le_max_left _ _⟩, ⟨min_le_left _ _, le_max_left _ _⟩⟩
    · rw [if_neg hlt]
      by_cases hgt : min 1 (cur * P.accentMixStrength) > 0.99
      · rw [if_pos hgt]
        exact ⟨⟨min_le_right _ _, le_max_right _ _⟩,
          ⟨min_le_right _ _, le_max_right _ _⟩, ⟨min_le_right _ _, le_max_right _ _⟩⟩
      · rw [if_neg hgt]
        exact ⟨lerp_channel_bounds _ _ _ hmix0 hmix1,
          lerp_channel_bounds _ _ _ hmix0 hmix1,
          lerp_channel_bounds _ _ _ hmix0 hmix1⟩

/-- C6 witness: the amended statement at the default parameters and
    palette for an accent-A cell at activation 0. -/
theorem C6_witness :
    ((1 : ℕ) ≠ 0 ∧ (0 : ℚ) ≤ 0 ∧ 0 ≤ defaultParams.accentMixStrength) ∧
    ((0 * defaultParams.accentMixStrength = 0 →
        cellColor defaultParams defaultPalette 1 0 = defaultPalette.gray) ∧
     (1 ≤ 0 * defaultParams.accentMixStrength →
        cellColor defaultParams defaultPalette 1 0 =
          (if (1 : ℕ) = 1 then defaultPalette.yellow else defaultPalette.pink)) ∧
     chanBetween defaultPalette.gray
       (if (1 : ℕ) = 1 then defaultPalette.yellow else defaultPalette.pink)
       (cellColor defaultParams defaultPalette 1 0)) :=
  ⟨⟨by decide, le_refl 0, by norm_num [defaultParams]⟩,
   C6_thm defaultParams defaultPalette 1 0 (by decide) (le_refl 0)
     (by norm_num [defaultParams])⟩

/-- C7: with a positive feather, the smoothstep threshold mask is bounded
    to the unit interval for every input and is monotone non-decreasing in
    its input signal. -/
theorem C7_thm (thr feather : ℚ) (hf : 0 < feather) :
    (∀ v, 0 ≤ smoothMask thr feather v ∧ smoothMask thr feather v ≤ 1) ∧
    (∀ v w, v ≤ w → smoothMask thr feather v ≤ smoothMask thr feather w) := by
  have hden : thr + feather - (thr - feather) = 2 * feather := by ring
  constructor
  · intro v
    unfold smoothMask
    set m := clamp01 ((v - (thr - feather)) / (thr + feather - (thr - feather)))
      with hm
    have h0 : 0 ≤ m := clamp01_nonneg _
    have h1 : m ≤ 1 := clamp01_le_one _
    constructor
    · have : (0 : ℚ) ≤ 3 - 2 * m := by linarith
      exact mul_nonneg (mul_nonneg h0 h0) this
    · nlinarith [mul_nonneg (mul_nonneg (sub_nonneg.mpr h1) (sub_nonneg.mpr h1))
        (by linarith : (0 : ℚ) ≤ 1 + 2 * m)]
  · intro v w hvw
    unfold smoothMask
    have hpos : (0 : ℚ) < thr + feather - (thr - feather) := by
      rw [hden]
      linarith
    have hband : (v - (thr - feather)) / (thr + feather - (thr - feather))
        ≤ (w - (thr - feather)) / (thr + feather - (thr - feather)) :=
      (div_le_div_iff_of_pos_right hpos).mpr (by linarith)
    have hcl := clamp01_mono hband
    exact smoothstep_mono (clamp01_nonneg _) hcl (clamp01_le_one _)

/-- C7 witness: the mask statement at the default coarse-field threshold
    and feather, evaluated at concrete signals. -/
theorem C7_witness :
    (0 : ℚ) < 15 / 100 ∧
    (0 ≤ smoothMask (35 / 100) (15 / 100) (-7) ∧
      smoothMask (35 / 100) (15 / 100) (-7) ≤ 1) ∧
    smoothMask (35 / 100) (15 / 100) (1 / 4) ≤ smoothMask (35 / 100) (15 / 100) 9 :=
  ⟨by norm_num,
   (C7_thm (35 / 100) (15 / 100) (by norm_num)).1 (-7),
   (C7_thm (35 / 100) (15 / 100) (by norm_num)).2 (1 / 4) 9 (by norm_num)⟩

/-- C10: any input string that is not an optional hash followed by exactly
    six hex digits parses to the black triple; hexToRgb is total, so
    malformed palette strings silently fall back to black. -/
theorem C10_thm (s : List Char) (h : ¬ specHexForm s) : hexToRgb s = ⟨0, 0, 0⟩ := by
  have hm : hexMatch s = none := by
    unfold hexMatch
    rw [if_neg]
    rintro ⟨hlen, hall⟩
    apply h
    refine ⟨stripHash s, ?_, hlen, fun c hc => ?_⟩
    · cases s with
      | nil => exact Or.inr rfl
      | cons a t =>
        by_cases ha : a = '#'
        · subst ha
          left
          simp [stripHash]
        · right
          simp [stripHash, ha]
    · exact List.all_eq_true.mp hall c hc
  unfold hexToRgb
  rw [hm]

/-- C10 witness: a malformed color string parses to black. -/
theorem C10_witness :
    ¬ specHexForm (String.data ("zzz")) ∧
    hexToRgb (String.data ("zzz")) = ⟨0, 0, 0⟩ := by
  have hneg : ¬ specHexForm (String.data ("zzz")) := by
    rintro ⟨t, ht | ht, hlen, _⟩
    · injection ht with h1 h2
      exact absurd h1 (by decide)
    · rw [← ht] at hlen
      simp at hlen
  exact ⟨hneg, C10_thm _ hneg⟩

/-- C3: after every build, a cell with a non-Base colorClass has no
    non-Base predecessor among the in-grid members of its causal
    half-neighborhood: the cell to its left, and the up-left, up and
    up-right cells of the previous row. -/
theorem C3_thm (cols rows : ℕ) (pY pP : ℚ) (rng : ℕ → ℚ) (i : ℕ)
    (hi : i < cols * rows)
    (hacc : (initGridCore cols rows pY pP rng).targetTypes.getD i 0 ≠ 0) :
    (0 < i % cols →
      (initGridCore cols rows pY pP rng).targetTypes.getD (i - 1) 0 = 0) ∧
    (cols ≤ i →
      (initGridCore cols rows pY pP rng).targetTypes.getD (i - cols) 0 = 0) ∧
    (cols ≤ i → 0 < i % cols →
      (initGridCore cols rows pY pP rng).targetTypes.getD (i - cols - 1) 0 = 0) ∧
    (cols ≤ i → i % cols + 1 < cols →
      (initGridCore cols rows pY pP rng).targetTypes.getD (i - cols + 1) 0 = 0) := by
  have hcols : 0 < cols := by
    rcases Nat.eq_zero_or_pos cols with h0 | h0
    · subst h0
      simp at hi
    · exact h0
  have hacc' : (buildUpTo cols rows pY pP rng (cols * rows)).tt.getD i 0 ≠ 0 := hacc
  set x := i % cols with hxdef
  set y := i / cols with hydef
  have hxy : cols * y + x = i := Nat.div_add_mod i cols
  have hx : x < cols := Nat.mod_lt i hcols
  have hxle : x ≤ i := Nat.mod_le i cols
  have hy : y < rows := by
    rw [hydef, Nat.div_lt_iff_lt_mul hcols]
    exact lt_of_lt_of_eq hi (mul_comm cols rows)
  have hz : (y : ℤ) * (cols : ℤ) = (i : ℤ) - (x : ℤ) := by
    have hq := congrArg (fun m : ℕ => (m : ℤ)) hxy
    push_cast at hq
    linarith
  have hxz : (0 : ℤ) ≤ (x : ℤ) := Int.natCast_nonneg x
  have hyz : (0 : ℤ) ≤ (y : ℤ) := Int.natCast_nonneg y
  have hxz2 : (x : ℤ) < (cols : ℤ) := by exact_mod_cast hx
  have hyz2 : (y : ℤ) < (rows : ℤ) := by exact_mod_cast hy
  have hcz : (1 : ℤ) ≤ (cols : ℤ) := by exact_mod_cast hcols
  rw [buildUpTo_tt_stable cols rows pY pP rng i (i + 1) (Nat.lt_succ_self i)
    (cols * rows) hi] at hacc'
  rw [buildUpTo_tt_write cols rows pY pP rng i hi] at hacc'
  have hnb : hasAccentNeighbor cols rows (buildUpTo cols rows pY pP rng i).tt
      (i % cols) (i / cols) = false := by
    cases hc : hasAccentNeighbor cols rows (buildUpTo cols rows pY pP rng i).tt
        (i % cols) (i / cols) with
    | false => rfl
    | true =>
      rw [if_pos hc] at hacc'
      exact absurd rfl hacc'
  simp only [hasAccentNeighbor, Bool.or_eq_false_iff] at hnb
  obtain ⟨⟨⟨hUL, hU⟩, hUR⟩, hL⟩ := hnb
  have hfin : ∀ j, j < i →
      (initGridCore cols rows pY pP rng).targetTypes.getD j 0
        = (buildUpTo cols rows pY pP rng i).tt.getD j 0 := by
    intro j hj
    exact buildUpTo_tt_stable cols rows pY pP rng j i hj (cols * rows) hi.le
  refine ⟨?_, ?_, ?_, ?_⟩
  · intro hx0
    have hv := accAt_eq_false hL ⟨by omega, by omega, by omega, by omega⟩
    rw [hz] at hv
    have hidx : ((i : ℤ) - (x : ℤ) + ((x : ℤ) - 1)).toNat = i - 1 := by omega
    rw [hidx] at hv
    rw [hfin (i - 1) (by omega)]
    exact hv
  · intro hci
    have hy1 : 1 ≤ y := by
      by_contra hc
      have hy0 : y = 0 := by omega
      rw [hy0, Nat.mul_zero, Nat.zero_add] at hxy
      omega
    have hv := accAt_eq_false hU ⟨by omega, by omega, by omega, by omega⟩
    rw [sub_one_mul, hz] at hv
    have hidx : ((i : ℤ) - (x : ℤ) - (cols : ℤ) + (x : ℤ)).toNat = i - cols := by
      omega
    rw [hidx] at hv
    rw [hfin (i - cols) (by omega)]
    exact hv
  · intro hci hx0
    have hy1 : 1 ≤ y := by
      by_contra hc
      have hy0 : y = 0 := by omega
      rw [hy0, Nat.mul_zero, Nat.zero_add] at hxy
      omega
    have hv := accAt_eq_false hUL ⟨by omega, by omega, by omega, by omega⟩
    rw [sub_one_mul, hz] at hv
    have hidx : ((i : ℤ) - (x : ℤ) - (cols : ℤ) + ((x : ℤ) - 1)).toNat
        = i - cols - 1 := by omega
    rw [hidx] at hv
    rw [hfin (i - cols - 1) (by omega)]
    exact hv
  · intro hci hxc
    have hy1 : 1 ≤ y := by
      by_contra hc
      have hy0 : y = 0 := by omega
      rw [hy0, Nat.mul_zero, Nat.zero_add] at hxy
      omega
    have hv := accAt_eq_false hUR ⟨by omega, by omega, by omega, by omega⟩
    rw [sub_one_mul, hz] at hv
    have hidx : ((i : ℤ) - (x : ℤ) - (cols : ℤ) + ((x : ℤ) + 1)).toNat
        = i - cols + 1 := by omega
    rw [hidx] at hv
    rw [hfin (i - cols + 1) (by omega)]
    exact hv

/-- C3 witness: a 2-column, 1-row build whose second cell is an accent;
    its only in-grid predecessor, the left cell, is Base. -/
theorem C3_witness :
    ((1 : ℕ) < 2 * 1 ∧
      (initGridCore 2 1 (1 / 2) 0 accentRng).targetTypes.getD 1 0 ≠ 0) ∧
    (0 < 1 % 2 →
      (initGridCore 2 1 (1 / 2) 0 accentRng).targetTypes.getD (1 - 1) 0 = 0) := by
  have h1 : (1 : ℕ) < 2 * 1 := by norm_num
  have hacc : (initGridCore 2 1 (1 / 2) 0 accentRng).targetTypes.getD 1 0 ≠ 0 := by
    norm_num [initGridCore, buildUpTo, buildStep, hasAccentNeighbor, accAt,
      classify, accentRng]
  exact ⟨⟨h1, hacc⟩, (C3_thm 2 1 (1 / 2) 0 accentRng 1 h1 hacc).1⟩

/-- C2 counterexample: a surface of width -8 and height 8 at the default
    pitch 8 gives cols = -1, rows = 1, numCells = -1, and the typed-array
    allocation new Uint8Array(-1) raises a RangeError (modelled as none)
    rather than producing an empty grid. -/
theorem C2_counterexample :
    initGrid (fun _ => 0) (1 / 4) (1 / 10) 3 5 (-8) 8 = none := by
  have hc : ⌈(-8 : ℚ) / (3 + 5)⌉ = -1 := by
    rw [Int.ceil_eq_iff]
    constructor <;> norm_num
  have hr : ⌈(8 : ℚ) / (3 + 5)⌉ = 1 := by
    rw [Int.ceil_eq_iff]
    constructor <;> norm_num
  simp only [initGrid]
  rw [hc, hr]
  rw [if_pos (by norm_num : (-1 : ℤ) * 1 < 0)]

/-- C2 amended: for positive pitch, a degenerate surface dimension that is
    zero or negative but strictly above -pitch yields an empty grid
    (cols = 0 or rows = 0, zero cells) and renders as a no-op with no
    fault; a dimension at or below -pitch with the other side positive
    instead makes the cell count negative and the typed-array allocation
    raise a RangeError. -/
theorem C2_thm (rng : ℕ → ℚ) (pY pP ps gap w h : ℚ) (hp : 0 < ps + gap)
    (hdeg : (-(ps + gap) < w ∧ w ≤ 0) ∨ (-(ps + gap) < h ∧ h ≤ 0)) :
    ∃ g, initGrid rng pY pP ps gap w h = some g ∧
      (g.cols = 0 ∨ g.rows = 0) ∧ g.cols * g.rows = 0 ∧
      g.targetTypes = [] ∧ g.biases = [] ∧ g.activations = [] ∧
      ∀ P N pal t, drawFrame P N pal g t = (g, []) := by
  rcases hdeg with ⟨hwl, hwu⟩ | ⟨hhl, hhu⟩
  · have hcz : ⌈w / (ps + gap)⌉ = 0 := by
      rw [Int.ceil_eq_iff]
      constructor
      · push_cast
        rw [lt_div_iff₀ hp]
        linarith
      · push_cast
        calc w / (ps + gap) ≤ 0 / (ps + gap) :=
            (div_le_div_iff_of_pos_right hp).mpr hwu
          _ = 0 := zero_div _
    refine ⟨initGridCore 0 (⌈h / (ps + gap)⌉).toNat pY pP rng, ?_, Or.inl rfl,
      ?_, ?_, ?_, ?_, ?_⟩
    · simp only [initGrid]
      rw [hcz]
      rw [if_neg (by simp : ¬ ((0 : ℤ) * ⌈h / (ps + gap)⌉ < 0))]
      rfl
    · simp [initGridCore]
    · simp [initGridCore, buildUpTo]
    · simp [initGridCore, buildUpTo]
    · simp [initGridCore]
    · intro P N pal t
      exact drawFrame_empty P N pal _ t (Or.inl rfl)
  · have hrz : ⌈h / (ps + gap)⌉ = 0 := by
      rw [Int.ceil_eq_iff]
      constructor
      · push_cast
        rw [lt_div_iff₀ hp]
        linarith
      · push_cast
        calc h / (ps + gap) ≤ 0 / (ps + gap) :=
            (div_le_div_iff_of_pos_right hp).mpr hhu
          _ = 0 := zero_div _
    refine ⟨initGridCore (⌈w / (ps + gap)⌉).toNat 0 pY pP rng, ?_, Or.inr rfl,
      ?_, ?_, ?_, ?_, ?_⟩
    · simp only [initGrid]
      rw [hrz]
      rw [if_neg (by simp : ¬ (⌈w / (ps + gap)⌉ * (0 : ℤ) < 0))]
      rfl
    · simp [initGridCore]
    · simp [initGridCore, buildUpTo]
    · simp [initGridCore, buildUpTo]
    · simp [initGridCore]
    · intro P N pal t
      exact drawFrame_empty P N pal _ t (Or.inr rfl)

/-- C2 witness: a zero-width surface over a tall host yields the empty
    grid and a no-op render. -/
theorem C2_witness :
    ((0 : ℚ) < 3 + 5 ∧ (-(3 + 5) < (0 : ℚ) ∧ (0 : ℚ) ≤ 0)) ∧
    (∃ g, initGrid (fun _ => 0) (1 / 4) (1 / 10) 3 5 0 100 = some g ∧
      (g.cols = 0 ∨ g.rows = 0) ∧ g.cols * g.rows = 0 ∧
      g.targetTypes = [] ∧ g.biases = [] ∧ g.activations = [] ∧
      ∀ P N pal t, drawFrame P N pal g t = (g, [])) :=
  ⟨⟨by norm_num, by norm_num, le_refl 0⟩,
   C2_thm (fun _ => 0) (1 / 4) (1 / 10) 3 5 0 100 (by norm_num)
     (Or.inl ⟨by norm_num, le_refl 0⟩)⟩

/-- C8: a frame render never changes the targetTypes or biases arrays, and
    the stored activation of every cell of a row whose vertical mask value
    is 0 (a skipped row) is unchanged; the smoother write is the only
    mutation of grid state. -/
theorem C8_thm (P : Params) (N : Noises) (pal : PaletteR) (g : Grid) (t : ℚ) :
    ((drawFrame P N pal g t).1.targetTypes = g.targetTypes) ∧
    ((drawFrame P N pal g t).1.biases = g.biases) ∧
    (∀ y, y < g.rows → maskVal P.maskHeight P.maskFeatherY g.rows y = 0 →
      ∀ x, x < g.cols →
        (drawFrame P N pal g t).1.activations.getD (y * g.cols + x) 0
          = g.activations.getD (y * g.cols + x) 0) := by
  refine ⟨rfl, rfl, ?_⟩
  intro y hy hmask x hx
  simp only [drawFrame]
  refine foldl_inv
    (fun st : List ℚ × List RenderOp =>
      st.1.getD (y * g.cols + x) 0 = g.activations.getD (y * g.cols + x) 0)
    (rowStep P N pal g.cols g.rows g.targetTypes g.biases t)
    (List.range g.rows) ?_ (g.activations, []) rfl
  intro y' _ st hst
  by_cases hyy : y' = y
  · subst hyy
    show (rowStep P N pal g.cols g.rows g.targetTypes g.biases t st y').1.getD
        (y' * g.cols + x) 0 = _
    simp only [rowStep]
    rw [hmask]
    rw [if_pos le_rfl]
    exact hst
  · rw [rowStep_getD_outside P N pal g.cols g.rows g.targetTypes g.biases t st y'
      (y * g.cols + x) (fun x' hx' => rowIdx_ne hx hx' (fun he => hyy he.symm))]
    exact hst

/-- C8 witness: with maskHeight = 1, row 0 of a one-cell grid has mask
    value 0, and its stored activation 1/2 survives a frame unchanged. -/
theorem C8_witness :
    ((drawFrame defaultParams zeroNoises defaultPalette oneCellGrid 0).1.targetTypes
       = oneCellGrid.targetTypes) ∧
    ((drawFrame defaultParams zeroNoises defaultPalette oneCellGrid 0).1.biases
       = oneCellGrid.biases) ∧
    (0 < oneCellGrid.rows ∧
     maskVal defaultParams.maskHeight defaultParams.maskFeatherY oneCellGrid.rows 0
       = 0 ∧
     0 < oneCellGrid.cols ∧
     (drawFrame defaultParams zeroNoises defaultPalette oneCellGrid 0).1.activations.getD
         (0 * oneCellGrid.cols + 0) 0
       = oneCellGrid.activations.getD (0 * oneCellGrid.cols + 0) 0) := by
  have hmask : maskVal defaultParams.maskHeight defaultParams.maskFeatherY
      oneCellGrid.rows 0 = 0 := by
    norm_num [defaultParams, oneCellGrid, maskVal, clamp01, min_def, max_def]
  have hthm := C8_thm defaultParams zeroNoises defaultPalette oneCellGrid 0
  exact ⟨hthm.1, hthm.2.1, by norm_num [oneCellGrid], hmask,
    by norm_num [oneCellGrid],
    hthm.2.2 0 (by norm_num [oneCellGrid]) hmask 0 (by norm_num [oneCellGrid])⟩

/-- C9: starting from the zero-initialized activations of a build, every
    stored activation stays in the unit interval across any number of
    rendered frames, for any smoothing in (0, 1], any positive mixGamma
    (with the host power function mapping unit-interval bases to the unit
    interval), any noise fields, bias values and frame times. -/
theorem C9_thm (cols rows : ℕ) (pY pP : ℚ) (rng : ℕ → ℚ) (P : Params)
    (N : Noises) (pal : PaletteR) (times : ℕ → ℚ)
    (hs0 : 0 < P.smoothing) (hs1 : P.smoothing ≤ 1) (hγ : 0 < P.mixGamma)
    (hpow : ∀ q e : ℚ, 0 < e → 0 ≤ q → q ≤ 1 →
      0 ≤ N.powFn q e ∧ N.powFn q e ≤ 1) :
    ∀ n j,
      0 ≤ (frames P N pal (initGridCore cols rows pY pP rng) times n).activations.getD
          j 0 ∧
      (frames P N pal (initGridCore cols rows pY pP rng) times n).activations.getD
          j 0 ≤ 1 := by
  intro n
  induction n with
  | zero =>
    intro j
    show 0 ≤ (List.replicate (cols * rows) (0 : ℚ)).getD j 0 ∧
      (List.replicate (cols * rows) (0 : ℚ)).getD j 0 ≤ 1
    rw [getD_replicate]
    norm_num
  | succ n ih =>
    exact drawFrame_inv P N pal
      (frames P N pal (initGridCore cols rows pY pP rng) times n) (times n)
      hs0 hs1 hγ hpow ih

/-- C9 witness: the bounds after one frame on a freshly built 2 by 2 grid
    with the default parameters and the identity power function. -/
theorem C9_witness :
    (0 < defaultParams.smoothing ∧ defaultParams.smoothing ≤ 1 ∧
      0 < defaultParams.mixGamma ∧
      (∀ q e : ℚ, 0 < e → 0 ≤ q → q ≤ 1 →
        0 ≤ zeroNoises.powFn q e ∧ zeroNoises.powFn q e ≤ 1)) ∧
    (0 ≤ (frames defaultParams zeroNoises defaultPalette
        (initGridCore 2 2 (1 / 4) (1 / 10) (fun _ => 0)) (fun _ => 0)
        1).activations.getD 0 0 ∧
     (frames defaultParams zeroNoises defaultPalette
        (initGridCore 2 2 (1 / 4) (1 / 10) (fun _ => 0)) (fun _ => 0)
        1).activations.getD 0 0 ≤ 1) := by
  have hpow : ∀ q e : ℚ, 0 < e → 0 ≤ q → q ≤ 1 →
      0 ≤ zeroNoises.powFn q e ∧ zeroNoises.powFn q e ≤ 1 :=
    fun _ _ _ h0 h1 => ⟨h0, h1⟩
  refine ⟨⟨by norm_num [defaultParams], by norm_num [defaultParams],
    by norm_num [defaultParams], hpow⟩, ?_⟩
  exact C9_thm 2 2 (1 / 4) (1 / 10) (fun _ => 0) defaultParams zeroNoises
    defaultPalette (fun _ => 0) (by norm_num [defaultParams])
    (by norm_num [defaultParams]) (by norm_num [defaultParams]) hpow 1 0

end PixelWave
